import Mathlib

set_option maxHeartbeats 1000000

/-!
Shallow embedding of the monitoring and detection engine of
`src/bot.py` (telegram-coin-watcher).

The SQLite database (`coins`, `price_history`, `config` tables) is
modelled as the structure `DB`.  Python floats are modelled as rationals
(every value that reaches an arithmetic comparison in the relevant code
paths is produced from decimal text or JSON numbers).  JSON scalar values
coming back from the price provider are modelled by `JVal`, so that the
dynamically-typed operations of Python (comparison of a string with a
number raises `TypeError`, division by zero raises `ZeroDivisionError`)
can be modelled faithfully with `Except`.

Rows of `price_history` carry an explicit timestamp.  The source orders
them with `ORDER BY timestamp DESC`; per the documented invariant the
timestamps are produced by `CURRENT_TIMESTAMP` at insertion time and are
monotonically non-decreasing in insertion order (callers never backfill),
so `ORDER BY timestamp DESC` is modelled as the reverse of insertion
order.
-/

/-- A scalar JSON value as it occurs in the provider response and in the
price history: a number (modelled as a rational) or a string. -/
inductive JVal where
  | num (q : ℚ)
  | str (s : String)
  deriving DecidableEq, Repr

/-- A parsed JSON object (such as `coin_data`): field-name / value pairs. -/
abbrev JObj : Type := List (String × JVal)

/-- The parsed provider response `response_json`: coin id to coin data. -/
abbrev JResp : Type := List (String × JObj)

/-- Numeric view of a `JVal`, used where a value is known to be a number. -/
def JVal.toRat : JVal → ℚ
  | .num q => q
  | .str _ => 0

/-- First-match lookup in a key/value list: models both a SQL point lookup
on a primary-key column and a Python dict lookup (`d.get(k)`, `k in d`). -/
def dbLookup (key : String) : List (String × α) → Option α
  | [] => none
  | (k, v) :: rest => if k = key then some v else dbLookup key rest

/-- The database state of `bot.py`: the `coins` watch-list, the
`price_history` table (coin id, timestamp, price) in insertion order, the
`config` key/value table, and the value `CURRENT_TIMESTAMP` would assign
to the next inserted row. -/
structure DB where
  coins : List (String × ℚ)
  price_history : List (String × Nat × JVal)
  config : List (String × ℚ)
  now : Nat
  deriving DecidableEq, Repr

/-- Notification events sent through the Telegram bot.  The source sends
formatted strings; the embedding keeps the event identity (which alert or
news item for which coin) and drops the presentation-only formatting. -/
inductive Notif where
  | thresholdAlert (coin : String) (change : ℚ)
  | runAlert (coin : String) (change : ℚ)
  | newsItem (title : Option String) (url : Option String)
  | diagnostic
  deriving DecidableEq, Repr

/-- State produced by `init_db` (bot.py lines 42-79): empty watch-list and
price history, and the seeded default configuration rows
`RUN_THRESHOLD_PERCENT = 10` and `RUN_CONSECUTIVE_PERIODS = 5`. -/
def init_db : DB :=
  { coins := []
    price_history := []
    config := [("RUN_THRESHOLD_PERCENT", 10), ("RUN_CONSECUTIVE_PERIODS", 5)]
    now := 0 }

/-- CoinWatcher.add_coin (bot.py lines 135-149):
`INSERT OR REPLACE INTO coins (coin_id, threshold) VALUES (?, ?)` on a
table where `coin_id` is UNIQUE.  `OR REPLACE` deletes the conflicting
row and inserts a fresh one (fresh rowid), hence: drop any existing row
for the coin and append the new row.  The fire-and-forget confirmation
notification does not touch the store. -/
def add_coin (db : DB) (coin_id : String) (threshold : ℚ) : DB :=
  { db with coins := db.coins.filter (fun c => c.1 != coin_id) ++ [(coin_id, threshold)] }

/-- CoinWatcher.remove_coin (bot.py lines 151-162):
`DELETE FROM coins WHERE coin_id = ?`. -/
def remove_coin (db : DB) (coin_id : String) : DB :=
  { db with coins := db.coins.filter (fun c => c.1 != coin_id) }

/-- CoinWatcher.get_coins (bot.py lines 164-167):
`SELECT coin_id, threshold FROM coins`. -/
def get_coins (db : DB) : List (String × ℚ) :=
  db.coins

/-- CoinWatcher.log_price (bot.py lines 169-178):
`INSERT INTO price_history (coin_id, price) VALUES (?, ?)`; the timestamp
column defaults to `CURRENT_TIMESTAMP`, modelled by `db.now`. -/
def log_price (db : DB) (coin_id : String) (price : JVal) : DB :=
  { db with price_history := db.price_history ++ [(coin_id, db.now, price)] }

/-- CoinWatcher.get_config (bot.py lines 180-184):
`SELECT value FROM config WHERE key = ?`, result converted with `float`
(config values are only ever written as decimal text, so the conversion
is modelled as the identity on the stored rational). -/
def get_config (db : DB) (key : String) : Option ℚ :=
  dbLookup key db.config

/-- CoinWatcher.set_config (bot.py lines 186-193):
`UPDATE config SET value = ? WHERE key = ?`.  An UPDATE on a key that has
no row is a silent no-op: only existing rows for the key are rewritten. -/
def set_config (db : DB) (key : String) (value : ℚ) : DB :=
  { db with config := db.config.map (fun kv => if kv.1 = key then (key, value) else kv) }

/-- The `set_run_periods` branch of `text_handler` (bot.py lines 402-412),
after `int()` has parsed the message text: a parsed value `periods <= 0`
raises `ValueError`, which is answered with an error message and never
reaches `set_config`; any positive value is written to the store.  (A
message that fails to parse as an integer is rejected by the same
`except` branch and also never reaches the store.) -/
def text_handler_set_run_periods (db : DB) (periods : ℤ) : DB :=
  if periods ≤ 0 then db
  else set_config db "RUN_CONSECUTIVE_PERIODS" (periods : ℚ)

/-- The `set_run_threshold` branch of `text_handler` (bot.py lines
390-400), after `float()` has parsed the message text: values `<= 0` are
rejected, positive values are written. -/
def text_handler_set_run_threshold (db : DB) (threshold : ℚ) : DB :=
  if threshold ≤ 0 then db
  else set_config db "RUN_THRESHOLD_PERCENT" threshold

-- ---------------------------------------------------------------------
-- The run detector (CoinWatcher.check_run, bot.py lines 195-218)
-- ---------------------------------------------------------------------

/-- Python `x < y` on dynamically typed values: defined between two
numbers and between two strings (lexicographic), a `TypeError` (modelled
as `Except.error`) otherwise. -/
def jlt : JVal → JVal → Except Unit Bool
  | .num a, .num b => .ok (decide (a < b))
  | .str a, .str b => .ok (compare a b == Ordering.lt)
  | _, _ => .error ()

/-- Python `x >= y` on dynamically typed values. -/
def jge : JVal → JVal → Except Unit Bool
  | .num a, .num b => .ok (decide (b ≤ a))
  | .str a, .str b => .ok (!(compare a b == Ordering.lt))
  | _, _ => .error ()

/-- The expression `(prices[0] - prices[-1]) / prices[-1] * 100` of
check_run (bot.py line 212), on the newest and oldest price: raises
`TypeError` on non-numbers and `ZeroDivisionError` when the oldest price
is zero, both modelled as `Except.error`. -/
def jrunChange : JVal → JVal → Except Unit ℚ
  | .num a, .num b => if b = 0 then .error () else .ok ((a - b) / b * 100)
  | _, _ => .error ()

/-- The expression `all(x < y for x, y in zip(chron, chron[1:]))` of
check_run (bot.py line 210) on the chronological price list: short-
circuits at the first failing comparison, and a `TypeError` raised by a
comparison before that propagates. -/
def isRunChk : List JVal → Except Unit Bool
  | [] => .ok true
  | [_] => .ok true
  | a :: b :: rest =>
    match jlt a b with
    | .error e => .error e
    | .ok true => isRunChk (b :: rest)
    | .ok false => .ok false

/-- SQLite `LIMIT ?` semantics for the bound parameter of check_run (the
configured period count arrives as a Python float): a value that cannot
be losslessly converted to an integer raises (modelled as `none`), a
negative value means no limit, and a non-negative integer keeps that many
leading rows. -/
def sqlLimit (k : ℚ) (xs : List α) : Option (List α) :=
  if k.den ≠ 1 then none
  else if k < 0 then some xs
  else some (xs.take k.num.toNat)

/-- All price-history rows of one coin, most-recent-first: the query
`SELECT price FROM price_history WHERE coin_id = ? ORDER BY timestamp
DESC` before the LIMIT is applied.  Timestamps are non-decreasing in
insertion order (CURRENT_TIMESTAMP, no backfilling), so descending
timestamp order is the reverse of insertion order. -/
def recentRowsAll (db : DB) (coin_id : String) : List (String × Nat × JVal) :=
  (db.price_history.filter (fun r => r.1 == coin_id)).reverse

/-- Number of price-history rows recorded for one coin. -/
def histCount (db : DB) (coin_id : String) : Nat :=
  (db.price_history.filter (fun r => r.1 == coin_id)).length

/-- The effective `RUN_CONSECUTIVE_PERIODS` value used by check_run
(bot.py line 198): `self.get_config('RUN_CONSECUTIVE_PERIODS') or 5` —
both an absent row (`None`) and a stored 0 (falsy float) fall back to 5. -/
def effPeriods (db : DB) : ℚ :=
  match get_config db "RUN_CONSECUTIVE_PERIODS" with
  | none => 5
  | some q => if q = 0 then 5 else q

/-- The effective `RUN_THRESHOLD_PERCENT` value used by check_run
(bot.py line 199): `self.get_config('RUN_THRESHOLD_PERCENT') or 10`. -/
def effRunThreshold (db : DB) : ℚ :=
  match get_config db "RUN_THRESHOLD_PERCENT" with
  | none => 10
  | some q => if q = 0 then 10 else q

/-- The list `prices` built by check_run (bot.py lines 200-206):
most-recent-first, limited by the configured period count.  `none` models
the query itself raising (non-integral LIMIT parameter). -/
def runPrices (db : DB) (coin_id : String) : Option (List JVal) :=
  (sqlLimit (effPeriods db) (recentRowsAll db coin_id)).map (List.map (fun r => r.2.2))

/-- CoinWatcher.check_run (bot.py lines 195-218).  Returns the run alert
it would send, or `none`.  The whole body runs under `try/except
Exception`, so every raised error (LIMIT type error, TypeError from a
comparison on non-numeric prices, IndexError on an empty list,
ZeroDivisionError when the oldest price is zero) is caught and logged,
yielding `none`; no error ever escapes to the caller. -/
def check_run (db : DB) (coin_id : String) : Option Notif :=
  match runPrices db coin_id with
  | none => none
  | some prices =>
    if (prices.length : ℚ) < effPeriods db then none
    else
      match isRunChk prices.reverse with
      | .error _ => none
      | .ok false => none
      | .ok true =>
        match prices.head?, prices.getLast? with
        | some pNew, some pOld =>
          match jrunChange pNew pOld with
          | .error _ => none
          | .ok tc => if effRunThreshold db ≤ tc then some (.runAlert coin_id tc) else none
        | _, _ => none

/-- The price window of check_run in chronological (oldest-first) order,
as rationals: used to state the run-detector claims. -/
def chronPrices (db : DB) (coin_id : String) (k : Nat) : List ℚ :=
  (((recentRowsAll db coin_id).take k).map (fun r => JVal.toRat r.2.2)).reverse

/-- The documented total-change formula `(p[k-1] - p[0]) / p[0] * 100` on
a chronological price list. -/
def totalChangePct (ps : List ℚ) : ℚ :=
  (ps.getLastD 0 - ps.headD 0) / ps.headD 0 * 100

/-- The window query of check_run with an explicit sample count `n`:
`SELECT price FROM price_history WHERE coin_id = ? ORDER BY timestamp
DESC LIMIT n`, kept together with the row timestamps so that the
ordering contract can be stated. -/
def recentSamples (db : DB) (coin_id : String) (n : Nat) : List (Nat × JVal) :=
  ((recentRowsAll db coin_id).take n).map (fun r => (r.2.1, r.2.2))

-- ---------------------------------------------------------------------
-- The monitor cycle (bot.py lines 220-270) and the notifiers
-- ---------------------------------------------------------------------

/-- Python truthiness of `current_price` (`if current_price:` in bot.py
line 241): `None`, the number 0 and the empty string are falsy. -/
def jTruthy : Option JVal → Bool
  | none => false
  | some (.num q) => q != 0
  | some (.str s) => s != ""

/-- The body of the per-coin loop of check_price_increase_async (bot.py
lines 236-248) for one watched coin.  Reads the coin entry from the
parsed response; when present (and not an empty object) with an
`eur_24h_change` field, logs the current price when truthy, evaluates the
threshold comparison, and invokes check_run.  A `TypeError` raised by the
comparison `price_change >= threshold` (non-numeric change value) escapes
the loop to the surrounding `except`, carrying the state and the
notifications already produced. -/
def processCoin (db : DB) (resp : JResp) (coin_id : String) (threshold : ℚ) :
    Except (DB × List Notif) (DB × List Notif) :=
  match dbLookup coin_id resp with
  | none => .ok (db, [])
  | some cd =>
    match cd with
    | [] => .ok (db, [])
    | _ :: _ =>
      match dbLookup "eur_24h_change" cd with
      | none => .ok (db, [])
      | some pc =>
        let cp := dbLookup "eur" cd
        let db1 := if jTruthy cp then log_price db coin_id (cp.getD (.num 0)) else db
        match jge pc (.num threshold) with
        | .error _ => .error (db1, [])
        | .ok trig =>
          let m1 := if trig then [Notif.thresholdAlert coin_id pc.toRat] else []
          let m2 := (check_run db1 coin_id).toList
          .ok (db1, m1 ++ m2)

/-- The per-coin loop of check_price_increase_async over the watch-list
snapshot, threading the store state and accumulating the notifications
sent so far; an escaping exception carries both. -/
def processCoins (resp : JResp) : DB → List (String × ℚ) → Except (DB × List Notif) (DB × List Notif)
  | db, [] => .ok (db, [])
  | db, (c, t) :: rest =>
    match processCoin db resp c t with
    | .error r => .error r
    | .ok (db1, m1) =>
      match processCoins resp db1 rest with
      | .ok (db2, m2) => .ok (db2, m1 ++ m2)
      | .error (db2, m2) => .error (db2, m1 ++ m2)

/-- CoinWatcher.check_price_increase_async (bot.py lines 220-252).  The
input `fetch` is the outcome of `session.get` plus `response.json()`:
`none` models the call raising (transport error, timeout, or a body that
fails to parse), `some resp` a parsed response.  With an empty watch-list
the method returns before fetching.  The `try/except Exception` around
the fetch and the whole loop turns any escaping error into a log entry
plus exactly one diagnostic notification to the notifier; nothing
propagates to the caller. -/
def check_price_increase_async (db : DB) (fetch : Option JResp) : DB × List Notif :=
  match get_coins db with
  | [] => (db, [])
  | _ :: _ =>
    match fetch with
    | none => (db, [Notif.diagnostic])
    | some resp =>
      match processCoins resp db (get_coins db) with
      | .ok (db1, msgs) => (db1, msgs)
      | .error (db1, msgs) => (db1, msgs ++ [Notif.diagnostic])

/-- NotificationManager.send_notification / NewsManager.send_notification
(bot.py lines 92-97 and 123-128): one delivery attempt through the bot;
a raising `bot.send_message` is caught and logged, never re-raised.  The
returned flag is the delivery outcome. -/
def send_notification (deliver : Notif → Except Unit Unit) (n : Notif) : Bool :=
  match deliver n with
  | .ok _ => true
  | .error _ => false

/-- NewsManager.send_news_notifications (bot.py lines 118-121): one
notification per news item, built from `item.get('title')` and
`item.get('url')`, delivered in order through send_notification. -/
def send_news_notifications (deliver : Notif → Except Unit Unit)
    (news_items : List (Option String × Option String)) : List (Notif × Bool) :=
  news_items.map (fun it =>
    let n := Notif.newsItem it.1 it.2
    (n, send_notification deliver n))

/-- Sequential delivery of a list of pending notifications (the alert
sends of the cycle): each is attempted through send_notification
regardless of earlier outcomes. -/
def deliverAll (deliver : Notif → Except Unit Unit) (ns : List Notif) : List (Notif × Bool) :=
  ns.map (fun n => (n, send_notification deliver n))

/-- The external inputs of one iteration of start_watching: the outcome
of the batched price fetch and the news items returned for the cycle
(fetch_latest_news catches its own errors and returns the empty list, so
a news failure is already the empty list here). -/
structure CycleInput where
  fetch : Option JResp
  news : List (Option String × Option String)
  deriving DecidableEq, Repr

/-- One iteration of the body of CoinWatcher.start_watching (bot.py lines
266-270): check_price_increase_async followed by check_news_async, both
total; the notifications of the cycle in send order. -/
def runCycle (db : DB) (i : CycleInput) : DB × List Notif :=
  let r1 := check_price_increase_async db i.fetch
  let m2 :=
    match get_coins r1.1 with
    | [] => []
    | _ :: _ => i.news.map (fun it => Notif.newsItem it.1 it.2)
  (r1.1, r1.2 ++ m2)

/-- The `while True` loop of start_watching over a finite trace of cycle
inputs: every scheduled cycle executes and then sleeps, whatever the
previous cycles produced. -/
def runCycles : DB → List CycleInput → DB × List (List Notif)
  | db, [] => (db, [])
  | db, i :: rest =>
    let r := runCycle db i
    let rr := runCycles r.1 rest
    (rr.1, r.2 :: rr.2)

-- ---------------------------------------------------------------------
-- Concrete states and inputs used by witnesses and counterexamples
-- ---------------------------------------------------------------------

/-- Freshly initialised store watching bitcoin with a 5% threshold. -/
def dbBtc : DB := { init_db with coins := [("bitcoin", 5)] }

/-- A response that parses as JSON but is malformed: the 24h-change field
holds a string instead of a number. -/
def respBadChange : JResp :=
  [("bitcoin", [("eur", JVal.num 100), ("eur_24h_change", JVal.str "oops")])]

/-- A well-formed response whose 24h change sits exactly on the 5%
threshold of `dbBtc`. -/
def respBoundary : JResp :=
  [("bitcoin", [("eur_24h_change", JVal.num 5), ("eur", JVal.num 100)])]

/-- A response reporting a current price of 0 for bitcoin. -/
def respZeroPrice : JResp :=
  [("bitcoin", [("eur", JVal.num 0), ("eur_24h_change", JVal.num 7)])]

/-- Store holding the five-sample strictly increasing ethereum history of
the specification scenario (oldest first: 100, 105, 110, 115, 120). -/
def dbEther : DB :=
  { init_db with price_history :=
      [("ethereum", 0, JVal.num 100), ("ethereum", 1, JVal.num 105),
       ("ethereum", 2, JVal.num 110), ("ethereum", 3, JVal.num 115),
       ("ethereum", 4, JVal.num 120)] }

/-- Store whose ethereum history starts at price 0 and then rises
strictly: the run predicate holds but the percentage is undefined. -/
def dbEtherZero : DB :=
  { init_db with price_history :=
      [("ethereum", 0, JVal.num 0), ("ethereum", 1, JVal.num 5),
       ("ethereum", 2, JVal.num 10), ("ethereum", 3, JVal.num 15),
       ("ethereum", 4, JVal.num 20)] }

-- ---------------------------------------------------------------------
-- Helper lemmas
-- ---------------------------------------------------------------------

theorem runCycles_length (db : DB) (is : List CycleInput) :
    (runCycles db is).2.length = is.length := by
  induction is generalizing db with
  | nil => rfl
  | cons i rest ih => simp [runCycles, ih]

theorem check_run_shape (db : DB) (coin_id : String) :
    check_run db coin_id = none ∨
      ∃ q, check_run db coin_id = some (Notif.runAlert coin_id q) := by
  unfold check_run
  repeat' split
  all_goals first
    | exact Or.inl rfl
    | exact Or.inr ⟨_, rfl⟩

theorem check_run_toList_no_threshold (db : DB) (cid c2 : String) (q : ℚ) :
    Notif.thresholdAlert c2 q ∉ (check_run db cid).toList := by
  rcases check_run_shape db cid with h | ⟨r, h⟩ <;> simp [h]

theorem dbLookup_map_update (key : String) (v : ℚ) (l : List (String × ℚ)) :
    dbLookup key (l.map (fun kv => if kv.1 = key then (key, v) else kv)) =
      if (dbLookup key l).isSome then some v else none := by
  induction l with
  | nil => simp [dbLookup]
  | cons kv rest ih =>
    obtain ⟨a, b⟩ := kv
    have hmap : List.map (fun kv => if kv.1 = key then (key, v) else kv) ((a, b) :: rest) =
        (if a = key then (key, v) else (a, b)) ::
          List.map (fun kv => if kv.1 = key then (key, v) else kv) rest := rfl
    rw [hmap]
    by_cases h : a = key
    · rw [if_pos h]
      subst h
      simp [dbLookup]
    · rw [if_neg h]
      simp [dbLookup, h, ih]

theorem filter_ne_append_self (c : String) (t : ℚ) (l : List (String × ℚ)) :
    (l.filter (fun e => e.1 != c) ++ [(c, t)]).filter (fun e => e.1 != c) =
      l.filter (fun e => e.1 != c) := by
  rw [List.filter_append]
  have h1 : (l.filter (fun e => e.1 != c)).filter (fun e => e.1 != c) =
      l.filter (fun e => e.1 != c) := by
    rw [List.filter_filter]
    apply List.filter_congr
    intro x _
    simp [Bool.and_self]
  have h2 : ([(c, t)] : List (String × ℚ)).filter (fun e => e.1 != c) = [] := by
    simp [List.filter]
  rw [h1, h2, List.append_nil]

-- ---------------------------------------------------------------------
-- Claim theorems: C7, C3, C4
-- ---------------------------------------------------------------------

/-- Claim C7: upserting an asset is idempotent.  `add_coin` applied twice
with the same `coin_id` and `threshold` yields exactly the state obtained
by applying it once, and the resulting watch-list holds exactly one entry
for that `coin_id`. -/
theorem add_coin_idempotent (db : DB) (c : String) (t : ℚ) :
    add_coin (add_coin db c t) c t = add_coin db c t ∧
      ((add_coin db c t).coins.filter (fun e => e.1 == c)).length = 1 := by
  constructor
  · unfold add_coin
    simp only [filter_ne_append_self]
  · unfold add_coin
    simp only [List.filter_append]
    have h1 : (db.coins.filter (fun e => e.1 != c)).filter (fun e => e.1 == c) = [] := by
      apply List.filter_eq_nil_iff.mpr
      intro e he
      have := List.of_mem_filter he
      simp only [bne_iff_ne, ne_eq] at this
      simp [this]
    have h2 : ([(c, t)] : List (String × ℚ)).filter (fun e => e.1 == c) = [(c, t)] := by
      simp [List.filter]
    rw [h1, h2]
    simp

/-- Witness for C7 is not needed (no hypotheses); this example checks the
definitions compute. -/
example : ((add_coin init_db "bitcoin" 5).coins) = [("bitcoin", 5)] := by decide

/-- Claim C3: config round-trip.  For each recognized key, writing a value
through `set_config` and reading it back through `get_config` returns that
value (the key rows are seeded by `init_db`, and nothing ever deletes
them, so the key is present in every reachable state — stated here as the
hypothesis `hpresent`); and reading a key that was never set on the
freshly initialised store returns the documented defaults, 10 for
`RUN_THRESHOLD_PERCENT` and 5 for `RUN_CONSECUTIVE_PERIODS`. -/
theorem config_roundtrip (db : DB) (k : String) (v : ℚ)
    (hk : k = "RUN_THRESHOLD_PERCENT" ∨ k = "RUN_CONSECUTIVE_PERIODS")
    (hpresent : (get_config db k).isSome) :
    get_config (set_config db k v) k = some v ∧
      get_config init_db "RUN_THRESHOLD_PERCENT" = some 10 ∧
      get_config init_db "RUN_CONSECUTIVE_PERIODS" = some 5 := by
  refine ⟨?_, by decide, by decide⟩
  unfold get_config set_config at *
  rw [dbLookup_map_update]
  simp [hpresent]

/-- Witness for C3: concrete round-trip on the initialised store. -/
theorem config_roundtrip_witness :
    get_config (set_config init_db "RUN_THRESHOLD_PERCENT" 15) "RUN_THRESHOLD_PERCENT" = some 15 ∧
      get_config init_db "RUN_THRESHOLD_PERCENT" = some 10 ∧
      get_config init_db "RUN_CONSECUTIVE_PERIODS" = some 5 :=
  config_roundtrip init_db "RUN_THRESHOLD_PERCENT" 15 (Or.inl rfl) (by decide)

/-- Claim C4, counterexample: the configuration boundary accepts the value
1 for `run_consecutive_periods` even though 1 is not `>= 2`, and the store
then holds 1 — so the claim that every value not `>= 2` is rejected before
reaching the store is false. -/
theorem run_periods_boundary_accepts_one :
    get_config (text_handler_set_run_periods init_db 1) "RUN_CONSECUTIVE_PERIODS" = some 1 ∧
      ¬ (2 ≤ (1 : ℤ)) := by
  constructor
  · decide
  · decide

/-- Claim C4, amended: the configuration write boundary rejects every
`run_consecutive_periods` value that is `<= 0` — the store is left
untouched — but it accepts the value 1, so the store is only guaranteed
never to hold a non-positive value, not never to hold a value below 2. -/
theorem run_periods_boundary_rejects_nonpositive (db : DB) (p : ℤ)
    (hp : p ≤ 0) :
    text_handler_set_run_periods db p = db := by
  unfold text_handler_set_run_periods
  simp [hp]

/-- Witness for the amended C4: the value 0 is rejected and the store is
unchanged. -/
theorem run_periods_boundary_rejects_nonpositive_witness :
    text_handler_set_run_periods init_db 0 = init_db :=
  run_periods_boundary_rejects_nonpositive init_db 0 (by decide)

-- ---------------------------------------------------------------------
-- Claim theorems: C2, C5, C9, C10
-- ---------------------------------------------------------------------

/-- Claim C2, counterexample: a response that is malformed (the 24h-change
field holds a string) makes the cycle end in the failure path — it sends
exactly the one diagnostic notification — and yet a price sample HAS been
recorded in that cycle, because `log_price` runs before the comparison
that raises.  This refutes the claim that on any failure of the batched
fetch, malformed responses included, no price sample is recorded. -/
theorem malformed_response_still_records_sample :
    (check_price_increase_async dbBtc (some respBadChange)).2 = [Notif.diagnostic] ∧
      (check_price_increase_async dbBtc (some respBadChange)).1.price_history =
        [("bitcoin", 0, JVal.num 100)] := by
  constructor <;> rfl

/-- Claim C2, amended: on a failure of the fetch call itself — transport
error, timeout, or a response body that fails to parse — the cycle sends
exactly one diagnostic notification, records no price sample (the store
is unchanged), does not propagate the error, and the next cycle is still
scheduled; a response that parses but carries a malformed (non-numeric)
change value, however, also ends in the single diagnostic but may have
recorded price samples earlier in the same cycle. -/
theorem fetch_failure_one_diagnostic (db : DB)
    (news : List (Option String × Option String)) (rest : List CycleInput)
    (h : get_coins db ≠ []) :
    check_price_increase_async db none = (db, [Notif.diagnostic]) ∧
      (runCycles db (⟨none, news⟩ :: rest)).2.length = rest.length + 1 := by
  constructor
  · unfold check_price_increase_async
    cases hgc : get_coins db with
    | nil => exact absurd hgc h
    | cons a l => rfl
  · rw [runCycles_length]
    rfl

/-- Witness for the amended C2: concrete failing fetch on the
bitcoin-watching store. -/
theorem fetch_failure_one_diagnostic_witness :
    check_price_increase_async dbBtc none = (dbBtc, [Notif.diagnostic]) ∧
      (runCycles dbBtc (⟨none, []⟩ :: []) ).2.length = 0 + 1 :=
  fetch_failure_one_diagnostic dbBtc [] [] (by decide)

/-- Claim C5: for an asset present in the response with a numeric 24h
change, the per-coin processing emits a threshold alert for that change
if and only if the change is at least the asset threshold — the boundary
is inclusive. -/
theorem threshold_alert_iff (db : DB) (resp : JResp) (coin_id : String)
    (threshold c : ℚ) (cd : JObj)
    (hcd : dbLookup coin_id resp = some cd)
    (hch : dbLookup "eur_24h_change" cd = some (JVal.num c)) :
    ∃ db1 msgs, processCoin db resp coin_id threshold = .ok (db1, msgs) ∧
      (Notif.thresholdAlert coin_id c ∈ msgs ↔ threshold ≤ c) := by
  unfold processCoin
  rw [hcd]
  cases cd with
  | nil => simp [dbLookup] at hch
  | cons f rest =>
    dsimp only
    rw [hch]
    simp only [jge]
    refine ⟨_, _, rfl, ?_⟩
    by_cases hle : threshold ≤ c
    · simp [hle, JVal.toRat]
    · have hd : decide (threshold ≤ c) = false := decide_eq_false hle
      rw [hd]
      simp only [Bool.false_eq_true, if_false, List.nil_append, hle, iff_false]
      exact check_run_toList_no_threshold _ _ _ _

/-- Witness for C5: a 24h change sitting exactly on the threshold (5 and
5) does trigger the alert. -/
theorem threshold_alert_iff_witness :
    ∃ db1 msgs, processCoin dbBtc respBoundary "bitcoin" 5 = .ok (db1, msgs) ∧
      (Notif.thresholdAlert "bitcoin" 5 ∈ msgs ↔ (5 : ℚ) ≤ 5) :=
  threshold_alert_iff dbBtc respBoundary "bitcoin" 5 5
    [("eur_24h_change", JVal.num 5), ("eur", JVal.num 100)] (by decide) (by decide)

/-- Claim C9: a notifier delivery failure for one message never
propagates and never prevents the remaining deliveries: whatever the
delivery oracle does — including raising on any subset of the messages —
every pending news item and every pending alert is attempted, in order,
and the totals match the pending lists. -/
theorem delivery_failure_no_block (deliver : Notif → Except Unit Unit)
    (news_items : List (Option String × Option String)) (pending : List Notif) :
    (send_news_notifications deliver news_items).map Prod.fst =
        news_items.map (fun it => Notif.newsItem it.1 it.2) ∧
      (send_news_notifications deliver news_items).length = news_items.length ∧
      (deliverAll deliver pending).map Prod.fst = pending ∧
      (deliverAll deliver pending).length = pending.length := by
  refine ⟨?_, ?_, ?_, ?_⟩
  · simp [send_news_notifications, Function.comp]
  · simp [send_news_notifications]
  · induction pending with
    | nil => rfl
    | cons n rest ih =>
      simp only [deliverAll, List.map_cons] at ih ⊢
      rw [ih]
  · simp [deliverAll]

/-- Claim C10: when the provider reports a numeric 24h change for an
asset but a current price of 0 — or omits the price field — the cycle
records no sample (the store is returned unchanged), while both detectors
still run for that asset: the threshold comparison decides the alert and
check_run is still invoked on the unchanged store. -/
theorem zero_price_no_sample (db : DB) (resp : JResp) (coin_id : String)
    (threshold c : ℚ) (cd : JObj)
    (hcd : dbLookup coin_id resp = some cd)
    (hch : dbLookup "eur_24h_change" cd = some (JVal.num c))
    (hpr : dbLookup "eur" cd = none ∨ dbLookup "eur" cd = some (JVal.num 0)) :
    processCoin db resp coin_id threshold =
      .ok (db, (if threshold ≤ c then [Notif.thresholdAlert coin_id c] else []) ++
        (check_run db coin_id).toList) := by
  unfold processCoin
  rw [hcd]
  cases cd with
  | nil => simp [dbLookup] at hch
  | cons f rest =>
    dsimp only
    rw [hch]
    simp only [jge]
    rcases hpr with hpr | hpr <;>
      simp [hpr, jTruthy, JVal.toRat]

/-- Witness for C10: a reported price of 0 with a 7% change on a 5%
threshold leaves the store unchanged, triggers the threshold alert and
still consults check_run. -/
theorem zero_price_no_sample_witness :
    processCoin dbBtc respZeroPrice "bitcoin" 5 =
      .ok (dbBtc, (if (5 : ℚ) ≤ 7 then [Notif.thresholdAlert "bitcoin" 7] else []) ++
        (check_run dbBtc "bitcoin").toList) :=
  zero_price_no_sample dbBtc respZeroPrice "bitcoin" 5 7
    [("eur", JVal.num 0), ("eur_24h_change", JVal.num 7)] (by decide) (by decide)
    (Or.inr (by decide))

-- ---------------------------------------------------------------------
-- Claim theorems: C6, C8
-- ---------------------------------------------------------------------

/-- Claim C6: when the oldest price of the window read by check_run is 0,
the percentage computation would divide by zero; the raised
`ZeroDivisionError` is caught by the surrounding handler and the case is
treated as "no run": no alert is emitted.  `check_run` is a total
function into `Option Notif`, so no error escapes to its caller. -/
theorem check_run_zero_oldest (db : DB) (coin_id : String) (prices : List JVal)
    (hw : runPrices db coin_id = some prices)
    (h0 : prices.getLast? = some (JVal.num 0)) :
    check_run db coin_id = none := by
  unfold check_run
  rw [hw]
  dsimp only
  rw [h0]
  by_cases hlen : ((prices.length : ℚ) < effPeriods db)
  · rw [if_pos hlen]
  · rw [if_neg hlen]
    cases hrun : isRunChk prices.reverse with
    | error e => rfl
    | ok b =>
      cases b with
      | false => rfl
      | true =>
        cases hh : prices.head? with
        | none => rfl
        | some pNew =>
          cases pNew with
          | num a => simp [jrunChange]
          | str s => rfl

/-- Witness for C6: strictly increasing history starting at price 0;
check_run stays silent and returns. -/
theorem check_run_zero_oldest_witness :
    check_run dbEtherZero "ethereum" = none :=
  check_run_zero_oldest dbEtherZero "ethereum"
    [JVal.num 20, JVal.num 15, JVal.num 10, JVal.num 5, JVal.num 0]
    (by decide) (by decide)

/-- Claim C8: the query for the `n` most recent samples of an asset
returns exactly `min n count` rows — hence at most `n`, and fewer than
`n` whenever fewer are recorded — and their timestamps are in
non-increasing (most-recent-first) order, given the documented store
invariant that recorded timestamps never decrease in insertion order. -/
theorem recentSamples_bounded_ordered (db : DB) (coin_id : String) (n : Nat)
    (hchron : (db.price_history.map (fun r => r.2.1)).Pairwise (· ≤ ·)) :
    (recentSamples db coin_id n).length = min n (histCount db coin_id) ∧
      (recentSamples db coin_id n).length ≤ n ∧
      ((recentSamples db coin_id n).map Prod.fst).Pairwise (fun a b => b ≤ a) := by
  have h1 : (recentSamples db coin_id n).length = min n (histCount db coin_id) := by
    simp [recentSamples, recentRowsAll, histCount]
  refine ⟨h1, ?_, ?_⟩
  · rw [h1]
    exact Nat.min_le_left _ _
  · have hA : ((db.price_history.filter (fun r => r.1 == coin_id)).map
        (fun r => r.2.1)).Pairwise (· ≤ ·) :=
      hchron.sublist ((List.filter_sublist _).map _)
    have hrev : (((db.price_history.filter (fun r => r.1 == coin_id)).map
        (fun r => r.2.1)).reverse).Pairwise (fun a b => b ≤ a) := by
      rw [List.pairwise_reverse]
      exact hA
    have htake : ((((db.price_history.filter (fun r => r.1 == coin_id)).map
        (fun r => r.2.1)).reverse).take n).Pairwise (fun a b => b ≤ a) :=
      hrev.sublist (List.take_sublist _ _)
    have heq : ((recentSamples db coin_id n).map Prod.fst) =
        (((db.price_history.filter (fun r => r.1 == coin_id)).map
          (fun r => r.2.1)).reverse).take n := by
      simp [recentSamples, recentRowsAll, List.map_take, List.map_reverse,
        List.map_map, Function.comp]
      rfl
    rw [heq]
    exact htake

/-- Witness for C8: three most recent of the five ethereum samples. -/
theorem recentSamples_bounded_ordered_witness :
    (recentSamples dbEther "ethereum" 3).length = min 3 (histCount dbEther "ethereum") ∧
      (recentSamples dbEther "ethereum" 3).length ≤ 3 ∧
      ((recentSamples dbEther "ethereum" 3).map Prod.fst).Pairwise (fun a b => b ≤ a) :=
  recentSamples_bounded_ordered dbEther "ethereum" 3 (by decide)

-- ---------------------------------------------------------------------
-- Claim C1: the run-detector trigger condition
-- ---------------------------------------------------------------------

theorem sqlLimit_natCast {α : Type} (k : Nat) (xs : List α) :
    sqlLimit (k : ℚ) xs = some (xs.take k) := by
  have hden : ((k : ℚ)).den = 1 := Rat.den_natCast k
  have hnum : ((k : ℚ)).num = (k : ℤ) := Rat.num_natCast k
  have hpos : ¬ ((k : ℚ) < 0) := not_lt.mpr (by positivity)
  simp [sqlLimit, hden, hnum, hpos, Int.toNat_natCast]

theorem isRunChk_map_num (l : List ℚ) :
    isRunChk (l.map JVal.num) = .ok (decide (l.Chain' (· < ·))) := by
  induction l with
  | nil => simp [isRunChk]
  | cons a t ih =>
    cases t with
    | nil => simp [isRunChk]
    | cons b t2 =>
      by_cases h : a < b
      · simp [isRunChk, jlt, h, List.chain'_cons]
        rw [← List.map_cons]
        exact ih
      · simp [isRunChk, jlt, h, List.chain'_cons]

theorem map_toRat_map_num (l : List JVal) (h : ∀ v ∈ l, ∃ q, v = JVal.num q) :
    (l.map JVal.toRat).map JVal.num = l := by
  induction l with
  | nil => rfl
  | cons v t ih =>
    obtain ⟨q, hq⟩ := h v (List.mem_cons_self v t)
    subst hq
    simp only [List.map_cons, JVal.toRat]
    rw [ih (fun w hw => h w (List.mem_cons_of_mem _ hw))]

/-- Claim C1: the run detector triggers a run alert if and only if at
least `k = run_consecutive_periods` samples are recorded for the asset,
the `k` most recent prices in chronological order are strictly
increasing, and the total change `(p[k-1] - p[0]) / p[0] * 100` is at
least `run_threshold_percent`; in particular it never triggers with fewer
than `k` recorded samples, for any `k >= 2`.  Hypotheses: the effective
period configuration is the integer `k >= 2`, the effective run threshold
is positive (defaults and the write boundary guarantee this), and the
recorded prices of the asset are numbers.  (When the chronologically
oldest price is 0 both sides are false: the code catches the division by
zero — claim C6 — and the stated total-change condition fails because the
threshold is positive.) -/
theorem check_run_triggers_iff (db : DB) (coin_id : String) (k : Nat)
    (hk2 : 2 ≤ k)
    (hk : effPeriods db = (k : ℚ))
    (hthr : 0 < effRunThreshold db)
    (hnum : ∀ r ∈ db.price_history, r.1 = coin_id → ∃ q, r.2.2 = JVal.num q) :
    ((check_run db coin_id).isSome ↔
        (k ≤ histCount db coin_id ∧
          (chronPrices db coin_id k).Chain' (· < ·) ∧
          effRunThreshold db ≤ totalChangePct (chronPrices db coin_id k)))
      ∧ (histCount db coin_id < k → check_run db coin_id = none) := by
  have hrowsnum : ∀ r ∈ recentRowsAll db coin_id, ∃ q, r.2.2 = JVal.num q := by
    intro r hr
    unfold recentRowsAll at hr
    rw [List.mem_reverse] at hr
    have hmem := List.mem_of_mem_filter hr
    have hcid : r.1 = coin_id := by
      have := List.of_mem_filter hr
      simpa using this
    exact hnum r hmem hcid
  have hwin : runPrices db coin_id =
      some (((recentRowsAll db coin_id).take k).map (fun r => r.2.2)) := by
    unfold runPrices
    rw [hk, sqlLimit_natCast]
    rfl
  set prices := ((recentRowsAll db coin_id).take k).map (fun r => r.2.2) with hprices
  have hlenrows : (recentRowsAll db coin_id).length = histCount db coin_id := by
    simp [recentRowsAll, histCount]
  have hlen : prices.length = min k (histCount db coin_id) := by
    simp [hprices, List.length_take, hlenrows]
  set qs := prices.map JVal.toRat with hqs
  have hprices_eq : qs.map JVal.num = prices := by
    apply map_toRat_map_num
    intro v hv
    rw [hprices] at hv
    obtain ⟨r, hr, hrv⟩ := List.mem_map.mp hv
    obtain ⟨q, hq⟩ := hrowsnum r (List.take_subset _ _ hr)
    exact ⟨q, hrv ▸ hq⟩
  have hchron : chronPrices db coin_id k = qs.reverse := by
    simp only [chronPrices, hqs, hprices, List.map_map, List.map_take]
    rfl
  by_cases hcount : histCount db coin_id < k
  · have hmin : min k (histCount db coin_id) = histCount db coin_id :=
      Nat.min_eq_right (le_of_lt hcount)
    have hlt : ((prices.length : ℚ) < effPeriods db) := by
      rw [hk, hlen, hmin]
      exact_mod_cast hcount
    have hnone : check_run db coin_id = none := by
      unfold check_run
      rw [hwin]
      dsimp only
      rw [if_pos hlt]
    refine ⟨?_, fun _ => hnone⟩
    rw [hnone]
    simp only [Option.isSome_none, Bool.false_eq_true, false_iff]
    rintro ⟨h1, -, -⟩
    exact absurd h1 (not_le.mpr hcount)
  · push_neg at hcount
    have hlenk : prices.length = k := by
      rw [hlen]
      exact Nat.min_eq_left hcount
    have hnotlt : ¬ ((prices.length : ℚ) < effPeriods db) := by
      rw [hk, hlenk]
      exact lt_irrefl _
    have hrunchk : isRunChk prices.reverse =
        .ok (decide ((chronPrices db coin_id k).Chain' (· < ·))) := by
      rw [← hprices_eq, ← List.map_reverse, isRunChk_map_num, hchron]
    have hqsne : qs ≠ [] := by
      intro h
      have : prices.length = 0 := by
        have := congrArg List.length h
        simpa [hqs] using this
      omega
    have hqh : qs.head? = some (qs.head hqsne) := List.head?_eq_head hqsne
    have hql : qs.getLast? = some (qs.getLast hqsne) := List.getLast?_eq_getLast qs hqsne
    have hpN : prices.head? = some (JVal.num (qs.head hqsne)) := by
      rw [← hprices_eq, List.head?_map, hqh]
      rfl
    have hpO : prices.getLast? = some (JVal.num (qs.getLast hqsne)) := by
      rw [← hprices_eq, List.getLast?_map, hql]
      rfl
    have hheadD : (chronPrices db coin_id k).headD 0 = qs.getLast hqsne := by
      rw [hchron, List.headD_eq_head?, List.head?_reverse, hql]
      rfl
    have hlastD : (chronPrices db coin_id k).getLastD 0 = qs.head hqsne := by
      rw [hchron, List.getLastD_eq_getLast?, List.getLast?_reverse, hqh]
      rfl
    have htc : totalChangePct (chronPrices db coin_id k) =
        (qs.head hqsne - qs.getLast hqsne) / qs.getLast hqsne * 100 := by
      rw [totalChangePct, hheadD, hlastD]
    by_cases hch : (chronPrices db coin_id k).Chain' (· < ·)
    · have hd : decide ((chronPrices db coin_id k).Chain' (· < ·)) = true :=
        decide_eq_true hch
      by_cases h0 : qs.getLast hqsne = 0
      · have hnone : check_run db coin_id = none := by
          unfold check_run
          rw [hwin]
          dsimp only
          rw [if_neg hnotlt, hrunchk, hd, hpN, hpO]
          simp [jrunChange, h0]
        refine ⟨?_, fun hc => absurd hc (not_lt.mpr hcount)⟩
        rw [hnone]
        simp only [Option.isSome_none, Bool.false_eq_true, false_iff]
        rintro ⟨-, -, h3⟩
        rw [htc, h0] at h3
        simp at h3
        exact absurd (lt_of_lt_of_le hthr h3) (lt_irrefl 0)
      · have hcr : check_run db coin_id =
            (if effRunThreshold db ≤
                (qs.head hqsne - qs.getLast hqsne) / qs.getLast hqsne * 100 then
              some (Notif.runAlert coin_id
                ((qs.head hqsne - qs.getLast hqsne) / qs.getLast hqsne * 100))
            else none) := by
          unfold check_run
          rw [hwin]
          dsimp only
          rw [if_neg hnotlt, hrunchk, hd, hpN, hpO]
          simp [jrunChange, h0]
        refine ⟨?_, fun hc => absurd hc (not_lt.mpr hcount)⟩
        rw [hcr, ← htc]
        by_cases hge : effRunThreshold db ≤ totalChangePct (chronPrices db coin_id k)
        · simp [hge, hcount, hch]
        · simp [hge]
    · have hd : decide ((chronPrices db coin_id k).Chain' (· < ·)) = false :=
        decide_eq_false hch
      have hnone : check_run db coin_id = none := by
        unfold check_run
        rw [hwin]
        dsimp only
        rw [if_neg hnotlt, hrunchk, hd]
      refine ⟨?_, fun hc => absurd hc (not_lt.mpr hcount)⟩
      rw [hnone]
      simp only [Option.isSome_none, Bool.false_eq_true, false_iff]
      rintro ⟨-, h2, -⟩
      exact hch h2

/-- Witness for C1: the specification scenario — five strictly increasing
ethereum samples 100..120 with the default configuration (k = 5,
threshold 10) — satisfies both sides of the equivalence. -/
theorem check_run_triggers_iff_witness :
    ((check_run dbEther "ethereum").isSome ↔
        (5 ≤ histCount dbEther "ethereum" ∧
          (chronPrices dbEther "ethereum" 5).Chain' (· < ·) ∧
          effRunThreshold dbEther ≤ totalChangePct (chronPrices dbEther "ethereum" 5)))
      ∧ (histCount dbEther "ethereum" < 5 → check_run dbEther "ethereum" = none) :=
  check_run_triggers_iff dbEther "ethereum" 5 (by decide) (by decide) (by decide)
    (by
      intro r hr hc
      simp only [dbEther] at hr
      simp at hr
      rcases hr with h | h | h | h | h <;> exact ⟨_, by rw [h]⟩)
